import Mathlib

/-!
Verification of the in-memory B-tree implementation in
`internal/b-tree/btree.go`.

The Go code works on a mutable heap of `Node` objects linked by child
pointers and non-owning parent back-pointers.  We embed it shallowly as a
state-passing program over an explicit store: a `Node` record per
allocation, addressed by its index in an allocation list, with pointers
modelled as addresses.  Every place where the Go code can panic (index out
of range, slice expression out of bounds, nil-pointer dereference) the
embedded function returns `none`.  Recursive Go functions (including the
search loop) are given a fuel argument so that every definition is
structurally recursive and computable by the kernel; the public entry
points supply fuel that is provably sufficient for every terminating Go
execution.

Integer remarks: all index and size arithmetic in the Go source stays
non-negative on the executions reachable through the public API, except for
the `low`/`high` bounds of the binary-search loop (where `high` starts at
`len-1`, possibly `-1`); those two are therefore modelled as `Int` and the
rest as `Nat`.  On non-negative operands Lean division agrees with Go
division.
-/

namespace BTreeGo

/-- `Item` represents the key-value pair contained within nodes
(`type Item[K comparable, V any] struct`). -/
structure Item (K : Type) (V : Type) where
  key : K
  value : V
deriving Repr, DecidableEq

/-- Node addresses: a Go `*Node` pointer is modelled as the index of the
pointed-to record in the allocation list of the tree state. -/
abbrev Addr := Nat

/-- `Node` is a single element within the tree
(`type Node[K comparable, V any] struct`): parent back-pointer, sorted
entry slice, child pointer slice. -/
structure Node (K : Type) (V : Type) where
  parent : Option Addr
  entries : List (Item K V)
  children : List Addr
deriving Repr, DecidableEq

/-- `funcCmp` determines how to order a type `K`
(`type funcCmp[K comparable] func(K, K) int`). -/
abbrev funcCmp (K : Type) := K → K → Int

/-- `BTree` (`type BTree[K comparable, V any] struct`) together with the
heap of every `Node` ever allocated for it.  `root = none` models a nil
root pointer. -/
structure BTree (K : Type) (V : Type) where
  store : List (Node K V)
  root : Option Addr
  order : Nat
  less : funcCmp K
  size : Nat

variable {K : Type} {V : Type}

/-- Pointer dereference: `none` models the nil / dangling cases in which Go
would crash. -/
def getNode (t : BTree K V) (a : Addr) : Option (Node K V) :=
  t.store[a]?

/-- In-place mutation of the node object at address `a`. -/
def setNode (t : BTree K V) (a : Addr) (n : Node K V) : BTree K V :=
  { t with store := t.store.set a n }

/-- `func (t *BTree[K, V]) isLeaf(node *Node[K, V]) bool` -/
def isLeaf (node : Node K V) : Bool :=
  node.children.length == 0

/-- `func (t *BTree[K, V]) maxChildren() int` -/
def maxChildren (order : Nat) : Nat :=
  order

/-- `func (t *BTree[K, V]) minChildren() int`: `(t.order + 1) / 2`. -/
def minChildren (order : Nat) : Nat :=
  (order + 1) / 2

/-- `func (t *BTree[K, V]) maxEntries() int` -/
def maxEntries (order : Nat) : Nat :=
  maxChildren order - 1

/-- `func (t *BTree[K, V]) minEntries() int` -/
def minEntries (order : Nat) : Nat :=
  minChildren order - 1

/-- `func (t *BTree[K, V]) middle() int`: `(t.order - 1) / 2`. -/
def middle (order : Nat) : Nat :=
  (order - 1) / 2

/-- `func (t *BTree[K, V]) shouldSplit(node *Node[K, V]) bool` -/
def shouldSplit (order : Nat) (node : Node K V) : Bool :=
  node.entries.length > maxEntries order

/-- `func (t *BTree[K, V]) isEmpty() bool` -/
def isEmpty (t : BTree K V) : Bool :=
  t.size == 0

/-- `func NewBTree[K comparable, V any](order int, less funcCmp[K]) *BTree[K, V]`.
The Go constructor panics ("Invalid degree, should be at least 3") exactly
when `order < 2`; the panic is modelled as `none`. -/
def NewBTree (order : Nat) (less : funcCmp K) : Option (BTree K V) :=
  if order < 2 then none
  else some { store := [], root := none, order := order, less := less, size := 0 }

/-- The loop body of `searchKeyIndex`: binary search on `low`/`high` bounds.
`fuel` only bounds the iteration count; `searchKeyIndex` passes fuel
`entries.length + 1`, which dominates the shrinking window `high + 1 - low`,
so the loop always runs to completion (see `searchAux_spec`, whose fuel
hypothesis it satisfies).
`(high + low) / 2` only ever divides non-negative operands here, where Lean
and Go agree. -/
def searchAux (less : funcCmp K) (entries : List (Item K V)) (key : K) :
    Nat → Int → Int → Int × Bool
  | 0, low, _ => (low, false)
  | fuel + 1, low, high =>
    if low ≤ high then
      let mid := (high + low) / 2
      match entries[mid.toNat]? with
      | none => (low, false)
      | some it =>
        if less key it.key = 0 then (mid, true)
        else if less key it.key > 0 then searchAux less entries key fuel (mid + 1) high
        else searchAux less entries key fuel low (mid - 1)
    else (low, false)

/-- `func (t *BTree[K, V]) searchKeyIndex(node *Node[K, V], key K) (index int, found bool)`.
The returned index is always non-negative, so it is exposed as a `Nat`. -/
def searchKeyIndex (less : funcCmp K) (entries : List (Item K V)) (key : K) :
    Nat × Bool :=
  let r := searchAux less entries key (entries.length + 1) 0 ((entries.length : Int) - 1)
  (r.1.toNat, r.2)

/-- One step of `func setParent`: set the parent field of the node at `a`. -/
def setParentOf (t : BTree K V) (a : Addr) (p : Option Addr) : Option (BTree K V) :=
  match getNode t a with
  | none => none
  | some n => some (setNode t a { n with parent := p })

/-- `func setParent[K comparable, V any](nodes []*Node[K, V], parent *Node[K, V])` -/
def setParent (t : BTree K V) (nodes : List Addr) (parent : Addr) : Option (BTree K V) :=
  nodes.foldlM (fun acc c => setParentOf acc c (some parent)) t

/-- `func (t *BTree[K, V]) splitRoot()`.  Allocates the two halves and the
new root, partitions entries and children around `middle`, reparents the
moved children, and installs the new root. -/
def splitRoot (t : BTree K V) : Option (BTree K V) :=
  match t.root with
  | none => none
  | some r0 =>
    match getNode t r0 with
    | none => none
    | some node =>
      let m := middle t.order
      let la := t.store.length
      let ra := t.store.length + 1
      let na := t.store.length + 2
      let leftChildren := if isLeaf node then [] else node.children.take (m + 1)
      let rightChildren := if isLeaf node then [] else node.children.drop (m + 1)
      let leftNode : Node K V :=
        { parent := none, entries := node.entries.take m, children := leftChildren }
      let rightNode : Node K V :=
        { parent := none, entries := node.entries.drop (m + 1), children := rightChildren }
      match node.entries[m]? with
      | none => none
      | some promoted =>
        let newRoot : Node K V :=
          { parent := none, entries := [promoted], children := [la, ra] }
        let t1 := { t with store := t.store ++ [leftNode, rightNode, newRoot] }
        match setParent t1 leftChildren la with
        | none => none
        | some t2 =>
          match setParent t2 rightChildren ra with
          | none => none
          | some t3 =>
            match setParentOf t3 la (some na) with
            | none => none
            | some t4 =>
              match setParentOf t4 ra (some na) with
              | none => none
              | some t5 => some { t5 with root := some na }

mutual

/-- `func (t *BTree[K, V]) insert(node *Node[K, V], entry *Item[K, V]) bool` -/
def insert : Nat → BTree K V → Addr → Item K V → Option (BTree K V × Bool)
  | 0, _, _, _ => none
  | fuel + 1, t, a, entry =>
    match getNode t a with
    | none => none
    | some n =>
      if isLeaf n then insertLeaf fuel t a entry
      else insertInternal fuel t a entry

/-- `func (t *BTree[K, V]) insertInternal(node *Node[K, V], entry *Item[K, V]) bool`.
The Go function explicitly panics when the insertion index reaches the
length of the child slice. -/
def insertInternal : Nat → BTree K V → Addr → Item K V → Option (BTree K V × Bool)
  | 0, _, _, _ => none
  | fuel + 1, t, a, entry =>
    match getNode t a with
    | none => none
    | some node =>
      let r := searchKeyIndex t.less node.entries entry.key
      if r.2 then some (setNode t a { node with entries := node.entries.set r.1 entry }, false)
      else if r.1 ≥ node.children.length then none
      else
        match node.children[r.1]? with
        | none => none
        | some c => insert fuel t c entry

/-- `func (t *BTree[K, V]) insertLeaf(node *Node[K, V], entry *Item[K, V]) bool`.
`searchKeyIndex` always returns an index at most the entry count, so the
shifted insertion is `List.insertIdx`. -/
def insertLeaf : Nat → BTree K V → Addr → Item K V → Option (BTree K V × Bool)
  | 0, _, _, _ => none
  | fuel + 1, t, a, entry =>
    match getNode t a with
    | none => none
    | some node =>
      let r := searchKeyIndex t.less node.entries entry.key
      if r.2 then some (setNode t a { node with entries := node.entries.set r.1 entry }, false)
      else
        let t1 := setNode t a { node with entries := node.entries.insertIdx r.1 entry }
        match split fuel t1 a with
        | none => none
        | some t2 => some (t2, true)

/-- `func (t *BTree[K, V]) split(node *Node[K, V])` -/
def split : Nat → BTree K V → Addr → Option (BTree K V)
  | 0, _, _ => none
  | fuel + 1, t, a =>
    match getNode t a with
    | none => none
    | some node =>
      if ¬ shouldSplit t.order node then some t
      else if t.root == some a then splitRoot t
      else splitNonRoot fuel t a

/-- `func (t *BTree[K, V]) splitNonRoot(node *Node[K, V])`.  The promoted
middle entry is inserted into the parent at the position found by
`searchKeyIndex`; the left half overwrites the parent's child slot at that
position (Go would panic if that slot index were out of range) and the
right half is spliced in just after it. -/
def splitNonRoot : Nat → BTree K V → Addr → Option (BTree K V)
  | 0, _, _ => none
  | fuel + 1, t, a =>
    match getNode t a with
    | none => none
    | some node =>
      match node.parent with
      | none => none
      | some p =>
        let m := middle t.order
        let la := t.store.length
        let ra := t.store.length + 1
        let leftChildren := if isLeaf node then [] else node.children.take (m + 1)
        let rightChildren := if isLeaf node then [] else node.children.drop (m + 1)
        let leftNode : Node K V :=
          { parent := some p, entries := node.entries.take m, children := leftChildren }
        let rightNode : Node K V :=
          { parent := some p, entries := node.entries.drop (m + 1), children := rightChildren }
        let t1 := { t with store := t.store ++ [leftNode, rightNode] }
        match setParent t1 leftChildren la with
        | none => none
        | some t2 =>
          match setParent t2 rightChildren ra with
          | none => none
          | some t3 =>
            match node.entries[m]? with
            | none => none
            | some promoted =>
              match getNode t3 p with
              | none => none
              | some parentN =>
                let pos := (searchKeyIndex t.less parentN.entries promoted.key).1
                let parent1 := { parentN with entries := parentN.entries.insertIdx pos promoted }
                if pos < parent1.children.length then
                  let parent2 :=
                    { parent1 with
                        children := (parent1.children.set pos la).insertIdx (pos + 1) ra }
                  split fuel (setNode t3 p parent2) p
                else none

end

/-- `func (t *BTree[K, V]) Put(key K, value V)`, with the explicit fuel of
the embedded recursion. -/
def Put (fuel : Nat) (t : BTree K V) (key : K) (value : V) : Option (BTree K V) :=
  let entry : Item K V := { key := key, value := value }
  match t.root with
  | none =>
    some { t with
            store := t.store ++ [{ parent := none, entries := [entry], children := [] }],
            root := some t.store.length,
            size := t.size + 1 }
  | some r =>
    match insert fuel t r entry with
    | none => none
    | some (t1, inserted) =>
      some (if inserted then { t1 with size := t1.size + 1 } else t1)

/-- Fuel budget that dominates the length of every call chain a terminating
Go execution can produce on the current heap. -/
def bigFuel (t : BTree K V) : Nat :=
  (t.store.length + 2) * (t.store.length + 2)

/-- `Put` with the default sufficient fuel. -/
def put (t : BTree K V) (key : K) (value : V) : Option (BTree K V) :=
  Put (bigFuel t) t key value

/-- The descent loop of `searchRecursively`. -/
def searchRec (less : funcCmp K) : Nat → BTree K V → Addr → K → Option (Option (Addr × Nat))
  | 0, _, _, _ => none
  | fuel + 1, t, a, key =>
    match getNode t a with
    | none => none
    | some node =>
      let r := searchKeyIndex less node.entries key
      if r.2 then some (some (a, r.1))
      else if isLeaf node then some none
      else
        match node.children[r.1]? with
        | none => none
        | some c => searchRec less fuel t c key

/-- `func (t *BTree[K, V]) searchRecursively(startNode *Node[K, V], key K)
(node *Node[K, V], index int, found bool)`.  The outer `none` is a crash;
`some none` is Go's `nil, -1, false` result.  Note the function reports
not-found whenever `t.size == 0`, before ever looking at `startNode`. -/
def searchRecursively (fuel : Nat) (t : BTree K V) (startNode : Option Addr) (key : K) :
    Option (Option (Addr × Nat)) :=
  if isEmpty t then some none
  else
    match startNode with
    | none => none
    | some a => searchRec t.less fuel t a key

/-- `func (t *BTree[K, V]) Get(key K) (value V, found bool)` -/
def Get (fuel : Nat) (t : BTree K V) (key : K) : Option (Option V) :=
  match searchRecursively fuel t t.root key with
  | none => none
  | some none => some none
  | some (some (a, i)) =>
    match getNode t a with
    | none => none
    | some node =>
      match node.entries[i]? with
      | none => none
      | some it => some (some it.value)

/-- `Get` with the default sufficient fuel. -/
def getVal (t : BTree K V) (key : K) : Option (Option V) :=
  Get (bigFuel t) t key

/-- The rightmost-spine descent loop of `predecessor`. -/
def descendLast : Nat → BTree K V → Addr → Option (Item K V)
  | 0, _, _ => none
  | fuel + 1, t, a =>
    match getNode t a with
    | none => none
    | some n =>
      if isLeaf n then
        match n.entries.getLast? with
        | none => none
        | some it => some it
      else
        match n.children.getLast? with
        | none => none
        | some c => descendLast fuel t c

/-- `func (t *BTree[K, V]) predecessor(node *Node[K, V], index int) *Item[K, V]` -/
def predecessor (fuel : Nat) (t : BTree K V) (a : Addr) (index : Nat) : Option (Item K V) :=
  match getNode t a with
  | none => none
  | some n =>
    match n.children[index]? with
    | none => none
    | some c => descendLast fuel t c

/-- The leftmost-spine descent loop of `successor`. -/
def descendFirst : Nat → BTree K V → Addr → Option (Item K V)
  | 0, _, _ => none
  | fuel + 1, t, a =>
    match getNode t a with
    | none => none
    | some n =>
      if isLeaf n then
        match n.entries.head? with
        | none => none
        | some it => some it
      else
        match n.children.head? with
        | none => none
        | some c => descendFirst fuel t c

/-- `func (t *BTree[K, V]) successor(node *Node[K, V], index int) *Item[K, V]` -/
def successor (fuel : Nat) (t : BTree K V) (a : Addr) (index : Nat) : Option (Item K V) :=
  match getNode t a with
  | none => none
  | some n =>
    match n.children[index + 1]? with
    | none => none
    | some c => descendFirst fuel t c

/-- `func (t *BTree[K, V]) getChildIndex(parent *Node[K, V], child *Node[K, V]) int`.
Go returns `-1` when the child pointer is not found; that is modelled as
`none` (the caller `rebalance` then inevitably indexes `entries[-1]` or
`children[-1]` and crashes). -/
def getChildIndex (parent : Node K V) (child : Addr) : Option Nat :=
  parent.children.findIdx? (fun c => c == child)

/-- `func (t *BTree[K, V]) mergeChildren(parent *Node[K, V], index int)`.
Each Go statement is transcribed in order, re-reading the mutated objects
between statements. -/
def mergeChildren (t : BTree K V) (p : Addr) (index : Nat) : Option (BTree K V) :=
  match getNode t p with
  | none => none
  | some parentN =>
    match parentN.children[index]?, parentN.children[index + 1]?, parentN.entries[index]? with
    | some la, some ra, some sep =>
      match getNode t la with
      | none => none
      | some ln =>
      let t1 := setNode t la { ln with entries := ln.entries ++ [sep] }
      match getNode t1 la, getNode t1 ra with
      | some ln1, some rn1 =>
        let t2 := setNode t1 la { ln1 with entries := ln1.entries ++ rn1.entries }
        match getNode t2 la, getNode t2 ra with
        | some ln2, some rn2 =>
          let t3 := setNode t2 la { ln2 with children := ln2.children ++ rn2.children }
          match getNode t3 ra with
          | none => none
          | some rn3 =>
          match setParent t3 rn3.children la with
          | none => none
          | some t4 =>
          match getNode t4 p with
          | none => none
          | some pn =>
            if index + 1 ≤ pn.entries.length ∧ index + 2 ≤ pn.children.length then
              some (setNode t4 p
                { pn with
                    entries := pn.entries.eraseIdx index,
                    children := pn.children.eraseIdx (index + 1) })
            else none
        | _, _ => none
      | _, _ => none
    | _, _, _ => none

/-- `func (t *BTree[K, V]) borrowFromLeft(node *Node[K, V], index int)`.
With `index = 0` Go would read `parent.entries[-1]` and crash. -/
def borrowFromLeft (t : BTree K V) (a : Addr) (index : Nat) : Option (BTree K V) :=
  match index with
  | 0 => none
  | i + 1 =>
    match getNode t a with
    | none => none
    | some n =>
    match n.parent with
    | none => none
    | some p =>
    match getNode t p with
    | none => none
    | some pn =>
    match pn.children[i]?, pn.entries[i]? with
    | some lsA, some sep =>
      let t1 := setNode t a { n with entries := sep :: n.entries }
      match getNode t1 lsA with
      | none => none
      | some ls =>
      match ls.entries.getLast? with
      | none => none
      | some lastE =>
      match getNode t1 p with
      | none => none
      | some pn1 =>
      if i < pn1.entries.length then
        let t2 := setNode t1 p { pn1 with entries := pn1.entries.set i lastE }
        match getNode t2 lsA with
        | none => none
        | some ls2 =>
        let t3 := setNode t2 lsA { ls2 with entries := ls2.entries.dropLast }
        match getNode t3 a with
        | none => none
        | some n3 =>
        if isLeaf n3 then some t3
        else
          match getNode t3 lsA with
          | none => none
          | some ls3 =>
          match ls3.children.getLast? with
          | none => none
          | some lastC =>
          let t4 := setNode t3 a { n3 with children := lastC :: n3.children }
          match getNode t4 lsA with
          | none => none
          | some ls4 =>
          let t5 := setNode t4 lsA { ls4 with children := ls4.children.dropLast }
          match getNode t5 a with
          | none => none
          | some n5 =>
          match n5.children.head? with
          | none => none
          | some c0 => setParentOf t5 c0 (some a)
      else none
    | _, _ => none

/-- `func (t *BTree[K, V]) borrowFromRight(node *Node[K, V], index int)` -/
def borrowFromRight (t : BTree K V) (a : Addr) (index : Nat) : Option (BTree K V) :=
  match getNode t a with
  | none => none
  | some n =>
  match n.parent with
  | none => none
  | some p =>
  match getNode t p with
  | none => none
  | some pn =>
  match pn.children[index + 1]?, pn.entries[index]? with
  | some rsA, some sep =>
    let t1 := setNode t a { n with entries := n.entries ++ [sep] }
    match getNode t1 rsA with
    | none => none
    | some rs =>
    match rs.entries.head? with
    | none => none
    | some firstE =>
    match getNode t1 p with
    | none => none
    | some pn1 =>
    if index < pn1.entries.length then
      let t2 := setNode t1 p { pn1 with entries := pn1.entries.set index firstE }
      match getNode t2 rsA with
      | none => none
      | some rs2 =>
      let t3 := setNode t2 rsA { rs2 with entries := rs2.entries.tail }
      match getNode t3 a with
      | none => none
      | some n3 =>
      if isLeaf n3 then some t3
      else
        match getNode t3 rsA with
        | none => none
        | some rs3 =>
        match rs3.children.head? with
        | none => none
        | some firstC =>
        let t4 := setNode t3 a { n3 with children := n3.children ++ [firstC] }
        match getNode t4 rsA with
        | none => none
        | some rs4 =>
        let t5 := setNode t4 rsA { rs4 with children := rs4.children.tail }
        match getNode t5 a with
        | none => none
        | some n5 =>
        match n5.children.getLast? with
        | none => none
        | some cl => setParentOf t5 cl (some a)
    else none
  | _, _ => none

/-- `func (t *BTree[K, V]) removeFromLeaf(node *Node[K, V], index int)`.
The slice expression `entries[index+1:]` makes Go panic exactly when
`index + 1 > len(entries)`; otherwise the copy-and-truncate removes the
entry at `index`. -/
def removeFromLeaf (t : BTree K V) (a : Addr) (index : Nat) : Option (BTree K V) :=
  match getNode t a with
  | none => none
  | some n =>
    if index < n.entries.length then
      some (setNode t a { n with entries := n.entries.eraseIdx index })
    else none

mutual

/-- `func (t *BTree[K, V]) remove(node *Node[K, V], index int)` -/
def remove : Nat → BTree K V → Addr → Nat → Option (BTree K V)
  | 0, _, _, _ => none
  | fuel + 1, t, a, index => do
    let n ← getNode t a
    let t1 ←
      if isLeaf n then removeFromLeaf t a index
      else removeFromNonLeaf fuel t a index
    rebalance fuel t1 a

/-- `func (t *BTree[K, V]) removeFromNonLeaf(node *Node[K, V], index int)`.
Note the Go recursion in the predecessor branch: it removes at position
`len(node.entries) - 1` of the immediate child `node.children[index]`. -/
def removeFromNonLeaf : Nat → BTree K V → Addr → Nat → Option (BTree K V)
  | 0, _, _, _ => none
  | fuel + 1, t, a, index => do
    let n ← getNode t a
    let ci ← n.children[index]?
    let cin ← getNode t ci
    if cin.entries.length ≥ minEntries t.order then do
      let pred ← predecessor fuel t a index
      if index < n.entries.length then
        let t1 := setNode t a { n with entries := n.entries.set index pred }
        remove fuel t1 ci (n.entries.length - 1)
      else none
    else do
      let ci1 ← n.children[index + 1]?
      let ci1n ← getNode t ci1
      if ci1n.entries.length ≥ minEntries t.order then do
        let succ ← successor fuel t a index
        if index < n.entries.length then
          let t1 := setNode t a { n with entries := n.entries.set index succ }
          remove fuel t1 ci1 0
        else none
      else do
        let t1 ← mergeChildren t a index
        let n1 ← getNode t1 a
        let ki ← n1.entries[index]?
        let kidx := (searchKeyIndex t.less n1.entries ki.key).1
        let c ← n1.children[index]?
        remove fuel t1 c kidx

/-- `func (t *BTree[K, V]) rebalance(node *Node[K, V])` -/
def rebalance : Nat → BTree K V → Addr → Option (BTree K V)
  | 0, _, _ => none
  | fuel + 1, t, a => do
    let n ← getNode t a
    if n.entries.length ≥ minEntries t.order then some t
    else if t.root == some a then some t
    else do
      let p ← n.parent
      let pn ← getNode t p
      match getChildIndex pn a with
      | none => none
      | some index => do
        let condLeft ←
          if index > 0 then do
            let lsA ← pn.children[index - 1]?
            let ls ← getNode t lsA
            pure (decide (ls.entries.length > minEntries t.order))
          else pure false
        if condLeft then do
          let t1 ← borrowFromLeft t a index
          rebalance fuel t1 p
        else do
          let condRight ←
            if index < pn.children.length - 1 then do
              let rsA ← pn.children[index + 1]?
              let rs ← getNode t rsA
              pure (decide (rs.entries.length > minEntries t.order))
            else pure false
          if condRight then do
            let t1 ← borrowFromRight t a index
            rebalance fuel t1 p
          else if index > 0 then do
            let t1 ← mergeChildren t p (index - 1)
            rebalance fuel t1 p
          else do
            let t1 ← mergeChildren t p index
            rebalance fuel t1 p

end

/-- The three possible outcomes of `Delete`: a Go panic (or exhausted
model fuel), the `KeyNotFound`-style error, or success with the new tree
state. -/
inductive DeleteResult (K : Type) (V : Type) where
  | crash : DeleteResult K V
  | keyNotFound : DeleteResult K V
  | ok : BTree K V → DeleteResult K V

/-- `true` exactly on the `ok` outcome. -/
def DeleteResult.isOk : DeleteResult K V → Bool
  | .ok _ => true
  | _ => false

/-- `true` exactly on the `crash` outcome. -/
def DeleteResult.isCrash : DeleteResult K V → Bool
  | .crash => true
  | _ => false

/-- `true` exactly on the `keyNotFound` outcome. -/
def DeleteResult.isKeyNotFound : DeleteResult K V → Bool
  | .keyNotFound => true
  | _ => false

/-- The tree state after a successful delete. -/
def DeleteResult.tree? : DeleteResult K V → Option (BTree K V)
  | .ok t => some t
  | _ => none

/-- `func (t *BTree[K, V]) Delete(key K) error`: errors on a nil root or a
failed search, otherwise removes, decrements the size, and collapses an
empty root onto its first child. -/
def Delete (fuel : Nat) (t : BTree K V) (key : K) : DeleteResult K V :=
  match t.root with
  | none => .keyNotFound
  | some _ =>
    match searchRecursively fuel t t.root key with
    | none => .crash
    | some none => .keyNotFound
    | some (some (a, index)) =>
      match remove fuel t a index with
      | none => .crash
      | some t1 =>
        let t2 := { t1 with size := t1.size - 1 }
        match t2.root with
        | none => .crash
        | some r =>
          match getNode t2 r with
          | none => .crash
          | some rn =>
            if rn.entries.length = 0 ∧ 0 < rn.children.length then
              match rn.children.head? with
              | none => .crash
              | some c0 =>
                match setParentOf { t2 with root := some c0 } c0 none with
                | none => .crash
                | some t3 => .ok t3
            else .ok t2

/-- `Delete` with the default sufficient fuel. -/
def del (t : BTree K V) (key : K) : DeleteResult K V :=
  Delete (bigFuel t) t key


/-- The node object behind child pointer `i` of `n`. -/
def childNodeOf (t : BTree K V) (n : Node K V) (i : Nat) : Option (Node K V) :=
  (n.children[i]?).bind (fun a => getNode t a)

/-- The predecessor branch of `removeFromNonLeaf` as a standalone function:
promote the in-order predecessor into entry slot `index` and recurse into
child `index` at entry position `len(node.entries) - 1`. -/
def predecessorBranch (fuel : Nat) (t : BTree K V) (a : Addr) (index : Nat) :
    Option (BTree K V) := do
  let n ← getNode t a
  let ci ← n.children[index]?
  let pred ← predecessor fuel t a index
  if index < n.entries.length then
    remove fuel (setNode t a { n with entries := n.entries.set index pred }) ci
      (n.entries.length - 1)
  else none

/-- The successor branch of `removeFromNonLeaf` as a standalone function:
promote the in-order successor into entry slot `index` and recurse into
child `index + 1` at entry position `0`. -/
def successorBranch (fuel : Nat) (t : BTree K V) (a : Addr) (index : Nat) :
    Option (BTree K V) := do
  let n ← getNode t a
  let ci1 ← n.children[index + 1]?
  let succ ← successor fuel t a index
  if index < n.entries.length then
    remove fuel (setNode t a { n with entries := n.entries.set index succ }) ci1 0
  else none

/-! ## Spec invariants -/

/-- Spec "Sortedness" invariant, decidably: within one node, every earlier
entry's key compares strictly below every later entry's key. -/
def entriesSorted (less : funcCmp K) : List (Item K V) → Bool
  | [] => true
  | e :: rest => rest.all (fun e2 => decide (less e.key e2.key < 0)) && entriesSorted less rest

/-- The node object the root pointer designates, if any. -/
def rootNodeOf (t : BTree K V) : Option (Node K V) :=
  t.root.bind (fun a => getNode t a)

/-! ## Concrete executions

`cmpInt` is the integer comparator of the repository's own test file
(`btree_test.go`).  The states below are the intermediate heaps of a few
concrete executions; each claim theorem re-verifies every single operation
of its execution as one equation, so the states are checked, not trusted.
Dead (unreferenced) nodes stay in the allocation list exactly as they stay
on the Go heap. -/

def cmpInt (i1 i2 : Int) : Int :=
  if i1 = i2 then 0 else if i1 < i2 then -1 else 1

def st0 : BTree Int Int :=
  { store := [],
    root := none, order := 3, less := cmpInt, size := 0 }

def st1 : BTree Int Int :=
  { store := [{ parent := none, entries := [{ key := 1, value := 10 }], children := [] }],
    root := some 0, order := 3, less := cmpInt, size := 1 }

def st2 : BTree Int Int :=
  { store := [{ parent := none, entries := [{ key := 1, value := 10 }, { key := 2, value := 20 }], children := [] }],
    root := some 0, order := 3, less := cmpInt, size := 2 }

def st3 : BTree Int Int :=
  { store := [{ parent := none, entries := [{ key := 1, value := 10 }, { key := 2, value := 20 }, { key := 3, value := 30 }], children := [] }, { parent := some 3, entries := [{ key := 1, value := 10 }], children := [] }, { parent := some 3, entries := [{ key := 3, value := 30 }], children := [] }, { parent := none, entries := [{ key := 2, value := 20 }], children := [1, 2] }],
    root := some 3, order := 3, less := cmpInt, size := 3 }

def ax4 : BTree Int Int :=
  { store := [{ parent := none, entries := [{ key := 1, value := 10 }, { key := 2, value := 20 }, { key := 3, value := 30 }], children := [] }, { parent := some 3, entries := [{ key := 0, value := 0 }, { key := 1, value := 10 }], children := [] }, { parent := some 3, entries := [{ key := 3, value := 30 }], children := [] }, { parent := none, entries := [{ key := 2, value := 20 }], children := [1, 2] }],
    root := some 3, order := 3, less := cmpInt, size := 4 }

def ax5 : BTree Int Int :=
  { store := [{ parent := none, entries := [{ key := 1, value := 10 }, { key := 2, value := 20 }, { key := 3, value := 30 }], children := [] }, { parent := some 3, entries := [{ key := 1, value := 10 }], children := [] }, { parent := some 3, entries := [{ key := 3, value := 30 }], children := [] }, { parent := none, entries := [{ key := 1, value := 10 }], children := [1, 2] }],
    root := some 3, order := 3, less := cmpInt, size := 3 }

def ax6 : BTree Int Int :=
  { store := [{ parent := none, entries := [{ key := 1, value := 10 }, { key := 2, value := 20 }, { key := 3, value := 30 }], children := [] }, { parent := some 3, entries := [{ key := 1, value := 10 }], children := [] }, { parent := some 3, entries := [{ key := 2, value := 21 }, { key := 3, value := 30 }], children := [] }, { parent := none, entries := [{ key := 1, value := 10 }], children := [1, 2] }],
    root := some 3, order := 3, less := cmpInt, size := 4 }

def ax7 : BTree Int Int :=
  { store := [{ parent := none, entries := [{ key := 1, value := 10 }, { key := 2, value := 20 }, { key := 3, value := 30 }], children := [] }, { parent := some 3, entries := [{ key := 1, value := 10 }], children := [] }, { parent := some 3, entries := [{ key := 2, value := 21 }], children := [] }, { parent := none, entries := [{ key := 1, value := 10 }], children := [1, 2] }],
    root := some 3, order := 3, less := cmpInt, size := 3 }

def ax8 : BTree Int Int :=
  { store := [{ parent := none, entries := [{ key := 1, value := 10 }, { key := 2, value := 20 }, { key := 3, value := 30 }], children := [] }, { parent := none, entries := [{ key := 1, value := 10 }, { key := 1, value := 10 }], children := [] }, { parent := some 3, entries := [], children := [] }, { parent := none, entries := [], children := [1] }],
    root := some 1, order := 3, less := cmpInt, size := 2 }

def bx4 : BTree Int Int :=
  { store := [{ parent := none, entries := [{ key := 1, value := 10 }, { key := 2, value := 20 }, { key := 3, value := 30 }], children := [] }, { parent := some 3, entries := [{ key := 1, value := 10 }], children := [] }, { parent := some 3, entries := [{ key := 3, value := 30 }, { key := 4, value := 40 }], children := [] }, { parent := none, entries := [{ key := 2, value := 20 }], children := [1, 2] }],
    root := some 3, order := 3, less := cmpInt, size := 4 }

def bx5 : BTree Int Int :=
  { store := [{ parent := none, entries := [{ key := 1, value := 10 }, { key := 2, value := 20 }, { key := 3, value := 30 }], children := [] }, { parent := some 3, entries := [{ key := 1, value := 10 }], children := [] }, { parent := some 3, entries := [{ key := 3, value := 30 }, { key := 4, value := 40 }, { key := 5, value := 50 }], children := [] }, { parent := none, entries := [{ key := 2, value := 20 }, { key := 4, value := 40 }], children := [1, 4, 5] }, { parent := some 3, entries := [{ key := 3, value := 30 }], children := [] }, { parent := some 3, entries := [{ key := 5, value := 50 }], children := [] }],
    root := some 3, order := 3, less := cmpInt, size := 5 }

def bx6 : BTree Int Int :=
  { store := [{ parent := none, entries := [{ key := 1, value := 10 }, { key := 2, value := 20 }, { key := 3, value := 30 }], children := [] }, { parent := some 3, entries := [{ key := 1, value := 10 }], children := [] }, { parent := some 3, entries := [{ key := 3, value := 30 }, { key := 4, value := 40 }, { key := 5, value := 50 }], children := [] }, { parent := none, entries := [{ key := 2, value := 20 }, { key := 4, value := 40 }], children := [1, 4, 5] }, { parent := some 3, entries := [{ key := 3, value := 30 }], children := [] }, { parent := some 3, entries := [{ key := 5, value := 50 }, { key := 6, value := 60 }], children := [] }],
    root := some 3, order := 3, less := cmpInt, size := 6 }

def bx7 : BTree Int Int :=
  { store := [{ parent := none, entries := [{ key := 1, value := 10 }, { key := 2, value := 20 }, { key := 3, value := 30 }], children := [] }, { parent := some 8, entries := [{ key := 1, value := 10 }], children := [] }, { parent := some 3, entries := [{ key := 3, value := 30 }, { key := 4, value := 40 }, { key := 5, value := 50 }], children := [] }, { parent := none, entries := [{ key := 2, value := 20 }, { key := 4, value := 40 }, { key := 6, value := 60 }], children := [1, 4, 6, 7] }, { parent := some 8, entries := [{ key := 3, value := 30 }], children := [] }, { parent := some 3, entries := [{ key := 5, value := 50 }, { key := 6, value := 60 }, { key := 7, value := 70 }], children := [] }, { parent := some 9, entries := [{ key := 5, value := 50 }], children := [] }, { parent := some 9, entries := [{ key := 7, value := 70 }], children := [] }, { parent := some 10, entries := [{ key := 2, value := 20 }], children := [1, 4] }, { parent := some 10, entries := [{ key := 6, value := 60 }], children := [6, 7] }, { parent := none, entries := [{ key := 4, value := 40 }], children := [8, 9] }],
    root := some 10, order := 3, less := cmpInt, size := 7 }

def bxd4 : BTree Int Int :=
  { store := [{ parent := none, entries := [{ key := 1, value := 10 }, { key := 2, value := 20 }, { key := 3, value := 30 }], children := [] }, { parent := some 8, entries := [{ key := 1, value := 10 }, { key := 3, value := 30 }], children := [] }, { parent := some 3, entries := [{ key := 3, value := 30 }, { key := 4, value := 40 }, { key := 5, value := 50 }], children := [] }, { parent := none, entries := [{ key := 2, value := 20 }, { key := 4, value := 40 }, { key := 6, value := 60 }], children := [1, 4, 6, 7] }, { parent := some 8, entries := [{ key := 3, value := 30 }], children := [] }, { parent := some 3, entries := [{ key := 5, value := 50 }, { key := 6, value := 60 }, { key := 7, value := 70 }], children := [] }, { parent := some 8, entries := [{ key := 5, value := 50 }], children := [] }, { parent := some 8, entries := [{ key := 7, value := 70 }], children := [] }, { parent := none, entries := [{ key := 3, value := 30 }, { key := 6, value := 60 }], children := [1, 6, 7] }, { parent := some 10, entries := [{ key := 6, value := 60 }], children := [6, 7] }, { parent := none, entries := [], children := [8] }],
    root := some 8, order := 3, less := cmpInt, size := 6 }

def ux0 : BTree Int Int :=
  { store := [],
    root := none, order := 5, less := cmpInt, size := 0 }

def ux1 : BTree Int Int :=
  { store := [{ parent := none, entries := [{ key := 1, value := 10 }], children := [] }],
    root := some 0, order := 5, less := cmpInt, size := 1 }

def ux2 : BTree Int Int :=
  { store := [{ parent := none, entries := [{ key := 1, value := 10 }, { key := 2, value := 20 }], children := [] }],
    root := some 0, order := 5, less := cmpInt, size := 2 }

def ux3 : BTree Int Int :=
  { store := [{ parent := none, entries := [{ key := 1, value := 10 }, { key := 2, value := 20 }, { key := 3, value := 30 }], children := [] }],
    root := some 0, order := 5, less := cmpInt, size := 3 }

def ux4 : BTree Int Int :=
  { store := [{ parent := none, entries := [{ key := 1, value := 10 }, { key := 2, value := 20 }, { key := 3, value := 30 }, { key := 4, value := 40 }], children := [] }],
    root := some 0, order := 5, less := cmpInt, size := 4 }

def ux5 : BTree Int Int :=
  { store := [{ parent := none, entries := [{ key := 1, value := 10 }, { key := 2, value := 20 }, { key := 3, value := 30 }, { key := 4, value := 40 }, { key := 5, value := 50 }], children := [] }, { parent := some 3, entries := [{ key := 1, value := 10 }, { key := 2, value := 20 }], children := [] }, { parent := some 3, entries := [{ key := 4, value := 40 }, { key := 5, value := 50 }], children := [] }, { parent := none, entries := [{ key := 3, value := 30 }], children := [1, 2] }],
    root := some 3, order := 5, less := cmpInt, size := 5 }

def ux6 : BTree Int Int :=
  { store := [{ parent := none, entries := [{ key := 1, value := 10 }, { key := 2, value := 20 }, { key := 3, value := 30 }, { key := 4, value := 40 }, { key := 5, value := 50 }], children := [] }, { parent := some 3, entries := [{ key := 1, value := 10 }, { key := 2, value := 20 }], children := [] }, { parent := some 3, entries := [{ key := 4, value := 40 }, { key := 5, value := 50 }, { key := 6, value := 60 }], children := [] }, { parent := none, entries := [{ key := 3, value := 30 }], children := [1, 2] }],
    root := some 3, order := 5, less := cmpInt, size := 6 }

def ux7 : BTree Int Int :=
  { store := [{ parent := none, entries := [{ key := 1, value := 10 }, { key := 2, value := 20 }, { key := 3, value := 30 }, { key := 4, value := 40 }, { key := 5, value := 50 }], children := [] }, { parent := some 3, entries := [{ key := 2, value := 20 }, { key := 2, value := 20 }], children := [] }, { parent := some 3, entries := [{ key := 5, value := 50 }, { key := 6, value := 60 }], children := [] }, { parent := none, entries := [{ key := 4, value := 40 }], children := [1, 2] }],
    root := some 3, order := 5, less := cmpInt, size := 5 }

def vx2 : BTree Int Int :=
  { store := [{ parent := none, entries := [], children := [] }],
    root := some 0, order := 3, less := cmpInt, size := 0 }



/-! ## Single-operation execution lemmas

One lemma per executed operation, each a single kernel evaluation of one
embedded call on an explicit heap. -/

theorem new3_eq : (NewBTree 3 cmpInt : Option (BTree Int Int)) = some st0 := rfl

theorem new5_eq : (NewBTree 5 cmpInt : Option (BTree Int Int)) = some ux0 := rfl

theorem step_st0_put1 : put st0 1 10 = some st1 := rfl

theorem step_st1_put2 : put st1 2 20 = some st2 := rfl

theorem step_st2_put3 : put st2 3 30 = some st3 := rfl

theorem step_st3_put0 : put st3 0 0 = some ax4 := rfl

theorem step_ax4_del2 : del ax4 2 = .ok ax5 := rfl

theorem step_ax5_put2 : put ax5 2 21 = some ax6 := rfl

theorem step_ax6_del3 : del ax6 3 = .ok ax7 := rfl

theorem step_ax7_del2 : del ax7 2 = .ok ax8 := rfl

theorem step_st3_put4 : put st3 4 40 = some bx4 := rfl

theorem step_bx4_put5 : put bx4 5 50 = some bx5 := rfl

theorem step_bx5_put6 : put bx5 6 60 = some bx6 := rfl

theorem step_bx6_put7 : put bx6 7 70 = some bx7 := rfl

theorem step_bx7_get2 : getVal bx7 2 = some (some 20) := rfl

theorem step_bx7_del4 : del bx7 4 = .ok bxd4 := rfl

theorem step_bxd4_get4 : getVal bxd4 4 = some none := rfl

theorem step_bxd4_get2 : getVal bxd4 2 = some none := rfl

theorem step_bx5_get4 : getVal bx5 4 = some (some 40) := rfl

theorem step_bx5_del4 : (del bx5 4).isCrash = true := rfl

theorem step_st0_del1 : (del st0 1).isKeyNotFound = true := rfl

theorem step_st3_del9 : (del st3 9).isKeyNotFound = true := rfl

theorem step_ux0_put1 : put ux0 1 10 = some ux1 := rfl

theorem step_ux1_put2 : put ux1 2 20 = some ux2 := rfl

theorem step_ux2_put3 : put ux2 3 30 = some ux3 := rfl

theorem step_ux3_put4 : put ux3 4 40 = some ux4 := rfl

theorem step_ux4_put5 : put ux4 5 50 = some ux5 := rfl

theorem step_ux5_put6 : put ux5 6 60 = some ux6 := rfl

theorem step_ux6_get1 : getVal ux6 1 = some (some 10) := rfl

theorem step_ux6_del3 : del ux6 3 = .ok ux7 := rfl

theorem step_ux7_get1 : getVal ux7 1 = some none := rfl

theorem step_st1_del1 : del st1 1 = .ok vx2 := rfl

/-! ## Claim theorems -/

/-- C1.  The spec claims the structural invariants (per-node strict
sortedness among them) hold after every completed `Put`/`Delete` sequence
from a fresh tree of order at least 3.  The code violates this: starting
from `NewBTree 3`, the completed sequence `Put 1, Put 2, Put 3, Put 0,
Delete 2, Put 2, Delete 3, Delete 2` (every step shown below succeeds)
ends with the root node holding the entry list `[(1,10), (1,10)]`, which is
not strictly sorted.  The root cause is `removeFromNonLeaf` removing index
`len(node.entries)-1` from the immediate child, an index unrelated to the
promoted predecessor's position. -/
theorem c1_completed_deletes_break_sortedness :
    (NewBTree 3 cmpInt : Option (BTree Int Int)) = some st0
    ∧ put st0 1 10 = some st1
    ∧ put st1 2 20 = some st2
    ∧ put st2 3 30 = some st3
    ∧ put st3 0 0 = some ax4
    ∧ del ax4 2 = .ok ax5
    ∧ put ax5 2 21 = some ax6
    ∧ del ax6 3 = .ok ax7
    ∧ del ax7 2 = .ok ax8
    ∧ rootNodeOf ax8 =
        some { parent := none,
               entries := [{ key := 1, value := 10 }, { key := 1, value := 10 }],
               children := [] }
    ∧ (rootNodeOf ax8).map (fun n => entriesSorted cmpInt n.entries) = some false :=
  ⟨new3_eq, step_st0_put1, step_st1_put2, step_st2_put3, step_st3_put0,
   step_ax4_del2, step_ax5_put2, step_ax6_del3, step_ax7_del2, rfl, rfl⟩

/-- C2.  The spec claims a successful `Delete k` removes exactly `k`: `Get k`
then reports not-found and every other previously present key keeps its
value.  The code violates the second half: after `Put 1 .. Put 7` (order 3),
`Get 2` returns value `20`; `Delete 4` succeeds and `Get 4` is indeed
not-found afterwards, but `Get 2` is not-found as well — key `2` was
destroyed by the mis-indexed recursive removal inside `removeFromNonLeaf`. -/
theorem c2_delete_destroys_unrelated_key :
    (NewBTree 3 cmpInt : Option (BTree Int Int)) = some st0
    ∧ put st0 1 10 = some st1
    ∧ put st1 2 20 = some st2
    ∧ put st2 3 30 = some st3
    ∧ put st3 4 40 = some bx4
    ∧ put bx4 5 50 = some bx5
    ∧ put bx5 6 60 = some bx6
    ∧ put bx6 7 70 = some bx7
    ∧ getVal bx7 2 = some (some 20)
    ∧ del bx7 4 = .ok bxd4
    ∧ getVal bxd4 4 = some none
    ∧ getVal bxd4 2 = some none :=
  ⟨new3_eq, step_st0_put1, step_st1_put2, step_st2_put3, step_st3_put4,
   step_bx4_put5, step_bx5_put6, step_bx6_put7, step_bx7_get2,
   step_bx7_del4, step_bxd4_get4, step_bxd4_get2⟩

/-- C4.  The spec claims `Delete k` returns success whenever the tree is
non-empty and `k` is present.  The code violates this: after `Put 1 .. Put
5` (order 3, producing the root `[2,4]` over leaves `[1]`, `[3]`, `[5]`),
key `4` is present (`Get 4` returns `40`), yet `Delete 4` panics instead of
succeeding: `removeFromNonLeaf` overwrites the root entry with the
predecessor `3` and then removes at index `len(root.entries) - 1 = 1` of
the one-entry leaf child `[3]`, where Go's slice expression
`entries[index+1:]` is out of bounds.  (The `KeyNotFound` side of the
claim behaves as stated on these runs: deleting from the fresh empty tree
or deleting an absent key errors, and the embedded `Delete`, like Go's,
returns the error before any mutation.) -/
theorem c4_delete_crashes_on_present_key :
    (NewBTree 3 cmpInt : Option (BTree Int Int)) = some st0
    ∧ put st0 1 10 = some st1
    ∧ put st1 2 20 = some st2
    ∧ put st2 3 30 = some st3
    ∧ put st3 4 40 = some bx4
    ∧ put bx4 5 50 = some bx5
    ∧ getVal bx5 4 = some (some 40)
    ∧ (del bx5 4).isCrash = true
    ∧ (del st0 1).isKeyNotFound = true
    ∧ (del st3 9).isKeyNotFound = true :=
  ⟨new3_eq, step_st0_put1, step_st1_put2, step_st2_put3, step_st3_put4,
   step_bx4_put5, step_bx5_get4, step_bx5_del4, step_st0_del1, step_st3_del9⟩

/-- C5 counterexample.  The spec claims that deleting the sole entry of a
size-1 tree leaves `IsEmpty() = true` and a null root.  The first half
holds, but the root does not become null: `Delete` only replaces the root
when it still has children, so after `Put 1; Delete 1` the root pointer
still designates a node — one with no entries and no children. -/
theorem c5_counterexample_root_not_null :
    (NewBTree 3 cmpInt : Option (BTree Int Int)) = some st0
    ∧ put st0 1 10 = some st1
    ∧ st1.size = 1
    ∧ del st1 1 = .ok vx2
    ∧ isEmpty vx2 = true
    ∧ vx2.root ≠ none
    ∧ rootNodeOf vx2 = some { parent := none, entries := [], children := [] } :=
  ⟨new3_eq, step_st0_put1, rfl, step_st1_del1, rfl,
   fun h => Option.noConfusion h, rfl⟩

/-- C7.  The spec (and the constructor's own panic message, "Invalid
degree, should be at least 3") claims construction fails exactly when the
order is below 3.  The code's guard is `order < 2`: order 2 is accepted and
a usable empty tree is returned, while order 1 (and below) panics.  Orders
of at least 3 are accepted as the claim states. -/
theorem c7_constructor_accepts_order_two :
    (NewBTree 2 cmpInt : Option (BTree Int Int)).isSome = true
    ∧ (NewBTree 1 cmpInt : Option (BTree Int Int)) = none
    ∧ (NewBTree 0 cmpInt : Option (BTree Int Int)) = none
    ∧ ∀ order : Nat, 3 ≤ order →
        (NewBTree order cmpInt : Option (BTree Int Int)) =
          some { store := [], root := none, order := order, less := cmpInt, size := 0 } := by
  refine ⟨rfl, rfl, rfl, fun order h => ?_⟩
  unfold NewBTree
  rw [if_neg (by omega)]

/-- C7 witness: the universally quantified part of
`c7_constructor_accepts_order_two` instantiated at order 3. -/
theorem c7_constructor_accepts_order_two_witness :
    (NewBTree 3 cmpInt : Option (BTree Int Int)) =
      some { store := [], root := none, order := 3, less := cmpInt, size := 0 } :=
  c7_constructor_accepts_order_two.2.2.2 3 (by decide)

/-- C8 counterexample.  The spec claims `minChildren = ceil((m+1)/2)`; in
the code `minChildren` is `(order + 1) / 2` with integer (floor) division,
which is `ceil(m/2)`.  The two differ at every even order, e.g. `m = 4`:
the code yields 2 while the spec formula `ceil((4+1)/2)` yields 3. -/
theorem c8_counterexample_minChildren_formula :
    minChildren 4 = 2 ∧ (4 + 1 + 1) / 2 = 3 ∧ minChildren 4 ≠ (4 + 1 + 1) / 2 := by
  decide

/-- C8 as amended: for every order `m ≥ 3`, `maxEntries = m - 1`,
`minEntries = minChildren - 1` and `middle = floor((m-1)/2)` hold as
claimed, while `minChildren` equals `floor((m+1)/2)`, i.e. the unique
integer with `m ≤ 2·minChildren ≤ m + 1` — that is `ceil(m/2)`, not
`ceil((m+1)/2)`. -/
theorem c8_derived_bounds (m : Nat) (h : 3 ≤ m) :
    maxEntries m = m - 1
    ∧ minChildren m = (m + 1) / 2
    ∧ m ≤ 2 * minChildren m
    ∧ 2 * minChildren m ≤ m + 1
    ∧ minEntries m = minChildren m - 1
    ∧ middle m = (m - 1) / 2 := by
  unfold maxEntries minEntries middle minChildren maxChildren
  omega

/-- C8 witness: the amended bounds evaluated at order 4. -/
theorem c8_derived_bounds_witness :
    (3 ≤ 4)
    ∧ (maxEntries 4 = 4 - 1
        ∧ minChildren 4 = (4 + 1) / 2
        ∧ 4 ≤ 2 * minChildren 4
        ∧ 2 * minChildren 4 ≤ 4 + 1
        ∧ minEntries 4 = minChildren 4 - 1
        ∧ middle 4 = (4 - 1) / 2) :=
  ⟨by decide, c8_derived_bounds 4 (by decide)⟩

/-- For every order of at least 3 the minimum entry count is positive. -/
theorem minEntries_pos (order : Nat) (h : 3 ≤ order) : 1 ≤ minEntries order := by
  unfold minEntries minChildren
  omega

/-- Node-level search on a single-entry node finds index 0 whenever the
comparator matches the key against that entry. -/
theorem searchKeyIndex_single (cmp : funcCmp K) (it : Item K V) (key : K)
    (h : cmp key it.key = 0) : searchKeyIndex cmp [it] key = (0, true) := by
  unfold searchKeyIndex searchAux
  simp [h]

/-- C3 counterexample.  The claim says that when the deleted entry's left
child holds exactly `minEntries` entries while the right child holds more,
the entry is replaced by its in-order successor, recursively deleted from
the right subtree — an operation that never touches the left subtree.  On
`NewBTree 5` after `Put 1 .. Put 6`, the root is `[3]` with children
`[1,2]` (exactly `minEntries = 2` entries) and `[4,5,6]` (more).  `Delete 3`
succeeds, but afterwards `Get 1` is not-found and the left child holds
`[2,2]`: the code took the predecessor branch (its guard is
`len >= minEntries`, not `len > minEntries`), destroying key 1 — under the
claimed successor promotion, key 1 would have been preserved. -/
theorem c3_counterexample_predecessor_taken :
    (NewBTree 5 cmpInt : Option (BTree Int Int)) = some ux0
    ∧ put ux0 1 10 = some ux1
    ∧ put ux1 2 20 = some ux2
    ∧ put ux2 3 30 = some ux3
    ∧ put ux3 4 40 = some ux4
    ∧ put ux4 5 50 = some ux5
    ∧ put ux5 6 60 = some ux6
    ∧ minEntries ux6.order = 2
    ∧ (rootNodeOf ux6).map (fun n => n.entries.map Item.key) = some [3]
    ∧ ((rootNodeOf ux6).bind (fun n => childNodeOf ux6 n 0)).map
        (fun n => n.entries.map Item.key) = some [1, 2]
    ∧ ((rootNodeOf ux6).bind (fun n => childNodeOf ux6 n 1)).map
        (fun n => n.entries.map Item.key) = some [4, 5, 6]
    ∧ getVal ux6 1 = some (some 10)
    ∧ del ux6 3 = .ok ux7
    ∧ getVal ux7 1 = some none
    ∧ ((rootNodeOf ux7).bind (fun n => childNodeOf ux7 n 0)).map
        (fun n => n.entries.map Item.key) = some [2, 2] :=
  ⟨new5_eq, step_ux0_put1, step_ux1_put2, step_ux2_put3, step_ux3_put4,
   step_ux4_put5, step_ux5_put6, rfl, rfl, rfl, rfl, step_ux6_get1,
   step_ux6_del3, step_ux7_get1, rfl⟩

/-- C3 as amended: `removeFromNonLeaf` takes the predecessor branch
whenever the left child of the deleted entry holds at least `minEntries`
entries (also when it holds exactly `minEntries` and the right child holds
more, and when both children are at the minimum); the successor branch is
taken only when the left child holds fewer than `minEntries` entries and
the right child holds at least `minEntries`. -/
theorem c3_branch_selection (fuel : Nat) (t : BTree K V) (a : Addr) (index : Nat)
    (n : Node K V) (hn : getNode t a = some n)
    (ci : Addr) (hci : n.children[index]? = some ci)
    (cin : Node K V) (hcin : getNode t ci = some cin) :
    (minEntries t.order ≤ cin.entries.length →
        removeFromNonLeaf (fuel + 1) t a index = predecessorBranch fuel t a index)
    ∧ (cin.entries.length < minEntries t.order →
        ∀ ci1 ci1n, n.children[index + 1]? = some ci1 → getNode t ci1 = some ci1n →
          minEntries t.order ≤ ci1n.entries.length →
          removeFromNonLeaf (fuel + 1) t a index = successorBranch fuel t a index) := by
  constructor
  · intro hge
    unfold removeFromNonLeaf predecessorBranch
    simp [hn, hci, hcin, ge_iff_le, hge]
  · intro hlt ci1 ci1n hci1 hci1n hge1
    unfold removeFromNonLeaf successorBranch
    simp [hn, hci, hcin, hci1, hci1n, ge_iff_le, hge1, Nat.not_le.mpr hlt]

/-- C3 witness: `c3_branch_selection` applied to the deletion of key 3 at
the root of the order-5 tree holding 1..6 — the left child is exactly at
`minEntries` and the right child above it, and the predecessor branch is
taken. -/
theorem c3_branch_selection_witness :
    removeFromNonLeaf 36 ux6 3 0 = predecessorBranch 35 ux6 3 0 :=
  (c3_branch_selection 35 ux6 3 0 _ rfl _ rfl _ rfl).1 (by decide)

/-- C5 as amended: deleting the sole entry of a size-1 tree (for any order
at least 3 and any comparator matching the key against itself) leaves
`IsEmpty() = true` and `size = 0`, but the root pointer still designates a
node — one with zero entries and zero children — instead of becoming
null. -/
theorem c5_delete_sole_entry (order : Nat) (cmp : funcCmp K) (k : K) (v : V)
    (horder : 3 ≤ order) (hkk : cmp k k = 0) :
    ∃ t0 t1 t2,
      (NewBTree order cmp : Option (BTree K V)) = some t0
      ∧ put t0 k v = some t1
      ∧ t1.size = 1
      ∧ del t1 k = .ok t2
      ∧ isEmpty t2 = true
      ∧ t2.size = 0
      ∧ t2.root = some 0
      ∧ getNode t2 0 = some { parent := none, entries := [], children := [] } := by
  have hnew : (NewBTree order cmp : Option (BTree K V)) =
      some { store := [], root := none, order := order, less := cmp, size := 0 } := by
    unfold NewBTree
    rw [if_neg (by omega)]
  have hsk : searchKeyIndex cmp [(⟨k, v⟩ : Item K V)] k = (0, true) :=
    searchKeyIndex_single cmp ⟨k, v⟩ k hkk
  refine ⟨_, (⟨[⟨none, [⟨k, v⟩], []⟩], some 0, order, cmp, 1⟩ : BTree K V),
          (⟨[⟨none, [], []⟩], some 0, order, cmp, 0⟩ : BTree K V),
          hnew, rfl, rfl, ?_, rfl, rfl, rfl, rfl⟩
  unfold del Delete
  simp only [bigFuel, List.length_cons, List.length_nil]
  unfold searchRecursively
  simp only [isEmpty]
  norm_num
  unfold searchRec
  simp only [getNode, List.getElem?_cons_zero, hsk]
  unfold remove
  simp only [getNode, List.getElem?_cons_zero]
  unfold removeFromLeaf
  simp only [getNode, List.getElem?_cons_zero, isLeaf, setNode, List.set]
  norm_num
  unfold rebalance
  simp only [getNode, List.getElem?_cons_zero, List.length_nil, Bind.bind, Option.bind]
  rw [if_neg (by have := minEntries_pos order horder; omega)]
  simp

/-- C5 witness: `c5_delete_sole_entry` at order 3, the integer comparator,
key 1 and value 10. -/
theorem c5_delete_sole_entry_witness :
    ∃ t0 t1 t2,
      (NewBTree 3 cmpInt : Option (BTree Int Int)) = some t0
      ∧ put t0 1 10 = some t1
      ∧ t1.size = 1
      ∧ del t1 1 = .ok t2
      ∧ isEmpty t2 = true
      ∧ t2.size = 0
      ∧ t2.root = some 0
      ∧ getNode t2 0 = some { parent := none, entries := [], children := [] } :=
  c5_delete_sole_entry 3 cmpInt 1 10 (by decide) (by decide)


section SearchSpec

variable (cmp : funcCmp K) (entries : List (Item K V)) (key : K)

theorem key_gt_of_le
    (htrans : ∀ a b c, cmp a b ≤ 0 → cmp b c ≤ 0 → cmp a c ≤ 0)
    (hsorted : entries.Pairwise (fun x y => cmp x.key y.key < 0))
    (j m : Nat) (hjm : j ≤ m) (itj itm : Item K V)
    (hj : entries[j]? = some itj) (hm : entries[m]? = some itm)
    (h : 0 < cmp key itm.key) : 0 < cmp key itj.key := by
  obtain ⟨hjl, hje⟩ := List.getElem?_eq_some.mp hj
  obtain ⟨hml, hme⟩ := List.getElem?_eq_some.mp hm
  rcases Nat.lt_or_ge j m with hlt | hge
  · have hs := List.pairwise_iff_getElem.mp hsorted j m hjl hml hlt
    rw [hje, hme] at hs
    by_contra hc
    have h1 : cmp key itj.key ≤ 0 := by omega
    have := htrans key itj.key itm.key h1 (le_of_lt hs)
    omega
  · have : j = m := by omega
    subst this
    rw [hj] at hm
    cases hm
    exact h

theorem key_lt_of_ge
    (hflip : ∀ a b, cmp a b < 0 ↔ 0 < cmp b a)
    (htrans : ∀ a b c, cmp a b ≤ 0 → cmp b c ≤ 0 → cmp a c ≤ 0)
    (hsorted : entries.Pairwise (fun x y => cmp x.key y.key < 0))
    (m j : Nat) (hmj : m ≤ j) (itm itj : Item K V)
    (hm : entries[m]? = some itm) (hj : entries[j]? = some itj)
    (h : cmp key itm.key < 0) : cmp key itj.key < 0 := by
  obtain ⟨hjl, hje⟩ := List.getElem?_eq_some.mp hj
  obtain ⟨hml, hme⟩ := List.getElem?_eq_some.mp hm
  rcases Nat.lt_or_ge m j with hlt | hge
  · have hs := List.pairwise_iff_getElem.mp hsorted m j hml hjl hlt
    rw [hje, hme] at hs
    by_contra hc
    have h1 : cmp itj.key key ≤ 0 := by
      have ha := hflip key itj.key
      omega
    have h2 := htrans itm.key itj.key key (le_of_lt hs) h1
    have := hflip key itm.key
    omega
  · have : m = j := by omega
    subst this
    rw [hj] at hm
    cases hm
    exact h

theorem match_unique
    (hflip : ∀ a b, cmp a b < 0 ↔ 0 < cmp b a)
    (htrans : ∀ a b c, cmp a b ≤ 0 → cmp b c ≤ 0 → cmp a c ≤ 0)
    (hsorted : entries.Pairwise (fun x y => cmp x.key y.key < 0))
    (i j : Nat) (iti itj : Item K V)
    (hi : entries[i]? = some iti) (hj : entries[j]? = some itj)
    (h0i : cmp key iti.key = 0) (h0j : cmp key itj.key = 0) : i = j := by
  obtain ⟨hil, hie⟩ := List.getElem?_eq_some.mp hi
  obtain ⟨hjl, hje⟩ := List.getElem?_eq_some.mp hj
  rcases Nat.lt_trichotomy i j with hlt | heq | hgt
  · exfalso
    have hs := List.pairwise_iff_getElem.mp hsorted i j hil hjl hlt
    rw [hie, hje] at hs
    have h1 : cmp itj.key key ≤ 0 := by
      have := hflip itj.key key
      have := hflip key itj.key
      omega
    have h2 : cmp key iti.key ≤ 0 := by omega
    have h3 := htrans itj.key key iti.key h1 h2
    have := hflip iti.key itj.key
    omega
  · exact heq
  · exfalso
    have hs := List.pairwise_iff_getElem.mp hsorted j i hjl hil hgt
    rw [hie, hje] at hs
    have h1 : cmp iti.key key ≤ 0 := by
      have := hflip iti.key key
      have := hflip key iti.key
      omega
    have h2 : cmp key itj.key ≤ 0 := by omega
    have h3 := htrans iti.key key itj.key h1 h2
    have := hflip itj.key iti.key
    omega

theorem searchAux_spec
    (hflip : ∀ a b, cmp a b < 0 ↔ 0 < cmp b a)
    (htrans : ∀ a b c, cmp a b ≤ 0 → cmp b c ≤ 0 → cmp a c ≤ 0)
    (hsorted : entries.Pairwise (fun x y => cmp x.key y.key < 0)) :
    ∀ (fuel : Nat) (low high : Int) (r : Int × Bool),
      searchAux cmp entries key fuel low high = r →
      0 ≤ low → low ≤ high + 1 → high < (entries.length : Int) →
      (high + 1 - low).toNat < fuel →
      (∀ (j : Nat) (it : Item K V), (j : Int) < low → entries[j]? = some it →
        0 < cmp key it.key) →
      (∀ (j : Nat) (it : Item K V), high < (j : Int) → entries[j]? = some it →
        cmp key it.key < 0) →
      ((r.2 = true ∧ ∃ (i : Nat) (it : Item K V), r.1 = (i : Int)
          ∧ entries[i]? = some it ∧ cmp key it.key = 0)
        ∨ (r.2 = false ∧ 0 ≤ r.1 ∧ r.1 ≤ (entries.length : Int)
            ∧ (∀ (j : Nat) (it : Item K V), (j : Int) < r.1 → entries[j]? = some it →
                0 < cmp key it.key)
            ∧ (∀ (j : Nat) (it : Item K V), r.1 ≤ (j : Int) → entries[j]? = some it →
                cmp key it.key < 0))) := by
  intro fuel
  induction fuel with
  | zero =>
    intro low high r hr h0 h1 h2 hfuel hlow hhigh
    omega
  | succ fuel ih =>
    intro low high r hr h0 h1 h2 hfuel hlow hhigh
    rw [searchAux] at hr
    by_cases hlh : low ≤ high
    · rw [if_pos hlh] at hr
      simp only [] at hr
      have hml : low ≤ (high + low) / 2 := by omega
      have hmh : (high + low) / 2 ≤ high := by omega
      have hmn : (((high + low) / 2).toNat : Int) = (high + low) / 2 := by omega
      have hmlen : ((high + low) / 2).toNat < entries.length := by omega
      have hsome : entries[((high + low) / 2).toNat]? =
          some entries[((high + low) / 2).toNat] := List.getElem?_eq_getElem hmlen
      rw [hsome] at hr
      simp only [] at hr
      by_cases hz : cmp key (entries[((high + low) / 2).toNat]).key = 0
      · rw [if_pos hz] at hr
        subst hr
        left
        exact ⟨rfl, ((high + low) / 2).toNat, entries[((high + low) / 2).toNat],
          by omega, hsome, hz⟩
      · rw [if_neg hz] at hr
        by_cases hgt : cmp key (entries[((high + low) / 2).toNat]).key > 0
        · rw [if_pos hgt] at hr
          refine ih ((high + low) / 2 + 1) high r hr (by omega) (by omega) h2 (by omega)
            ?_ hhigh
          intro j it hj hjit
          rcases lt_or_ge (j : Int) low with hc | hc
          · exact hlow j it hc hjit
          · exact key_gt_of_le cmp entries key htrans hsorted j ((high + low) / 2).toNat
              (by omega) it entries[((high + low) / 2).toNat] hjit hsome hgt
        · have hlt : cmp key (entries[((high + low) / 2).toNat]).key < 0 := by omega
          rw [if_neg hgt] at hr
          refine ih low ((high + low) / 2 - 1) r hr h0 (by omega) (by omega) (by omega)
            hlow ?_
          intro j it hj hjit
          exact key_lt_of_ge cmp entries key hflip htrans hsorted
            ((high + low) / 2).toNat j (by omega) entries[((high + low) / 2).toNat] it
            hsome hjit hlt
    · rw [if_neg hlh] at hr
      subst hr
      right
      refine ⟨rfl, h0, by omega, hlow, ?_⟩
      intro j it hj hjit
      exact hhigh j it (by omega) hjit

/-- C9.  On a node whose entries are strictly sorted by a lawful comparator
(antisymmetric sign and transitive), `searchKeyIndex` returns `(i, true)`
exactly at the unique index whose entry matches the key, and otherwise
`(j, false)` where `j` is the index of the first entry strictly greater
than the key — every index below `j` compares strictly below the key,
every index from `j` on compares strictly above it, so `j` equals the
entry count when no entry is greater. -/
theorem c9_searchKeyIndex_spec
    (cmp : funcCmp K) (entries : List (Item K V)) (key : K)
    (hflip : ∀ a b, cmp a b < 0 ↔ 0 < cmp b a)
    (htrans : ∀ a b c, cmp a b ≤ 0 → cmp b c ≤ 0 → cmp a c ≤ 0)
    (hsorted : entries.Pairwise (fun x y => cmp x.key y.key < 0)) :
    ((searchKeyIndex cmp entries key).2 = true →
      ∃ it : Item K V, entries[(searchKeyIndex cmp entries key).1]? = some it
        ∧ cmp key it.key = 0
        ∧ ∀ (j : Nat) (it2 : Item K V), entries[j]? = some it2 → cmp key it2.key = 0 →
            j = (searchKeyIndex cmp entries key).1)
    ∧ ((searchKeyIndex cmp entries key).2 = false →
        (searchKeyIndex cmp entries key).1 ≤ entries.length
        ∧ (∀ (j : Nat) (it2 : Item K V), entries[j]? = some it2 → cmp key it2.key ≠ 0)
        ∧ ∀ (j : Nat) (it2 : Item K V), entries[j]? = some it2 →
            ((j < (searchKeyIndex cmp entries key).1 ↔ 0 < cmp key it2.key)
             ∧ ((searchKeyIndex cmp entries key).1 ≤ j ↔ cmp key it2.key < 0))) := by
  have hspec := searchAux_spec cmp entries key hflip htrans hsorted (entries.length + 1) 0
    ((entries.length : Int) - 1)
    (searchAux cmp entries key (entries.length + 1) 0 ((entries.length : Int) - 1))
    rfl (by omega) (by omega) (by omega) (by omega)
    (fun j it hj _ => absurd hj (by omega))
    (fun j it hj hjit => by
      obtain ⟨hl, he⟩ := List.getElem?_eq_some.mp hjit
      omega)
  set r := searchAux cmp entries key (entries.length + 1) 0 ((entries.length : Int) - 1)
    with hrdef
  have hsk : searchKeyIndex cmp entries key = (r.1.toNat, r.2) := rfl
  rw [hsk]
  simp only []
  rcases hspec with ⟨ht, i, it, hri, hit, hz⟩ | ⟨hf, h0, hlen, hlow, hhigh⟩
  · have htn : r.1.toNat = i := by omega
    constructor
    · intro _
      rw [htn]
      refine ⟨it, hit, hz, ?_⟩
      intro j it2 hj hz2
      exact match_unique cmp entries key hflip htrans hsorted j i it2 it hj hit hz2 hz
    · intro hfalse
      rw [ht] at hfalse
      cases hfalse
  · constructor
    · intro htrue
      rw [hf] at htrue
      cases htrue
    · intro _
      refine ⟨by omega, ?_, ?_⟩
      · intro j it2 hj
        rcases Nat.lt_or_ge j r.1.toNat with hc | hc
        · have := hlow j it2 (by omega) hj
          omega
        · have := hhigh j it2 (by omega) hj
          omega
      intro j it2 hj
      obtain ⟨hjl, hje⟩ := List.getElem?_eq_some.mp hj
      constructor
      · constructor
        · intro hlt
          exact hlow j it2 (by omega) hj
        · intro hpos
          by_contra hc
          have := hhigh j it2 (by omega) hj
          omega
      · constructor
        · intro hge
          exact hhigh j it2 (by omega) hj
        · intro hneg
          by_contra hc
          have := hlow j it2 (by omega) hj
          omega


end SearchSpec

/-- The integer comparator flips sign under argument exchange. -/
theorem cmpInt_flip (a b : Int) : cmpInt a b < 0 ↔ 0 < cmpInt b a := by
  unfold cmpInt
  split_ifs <;> omega

/-- The integer comparator is transitive on its non-positive cone. -/
theorem cmpInt_trans (a b c : Int) :
    cmpInt a b ≤ 0 → cmpInt b c ≤ 0 → cmpInt a c ≤ 0 := by
  unfold cmpInt
  split_ifs <;> omega

/-- C9 witness: the search specification instantiated on the sorted
two-entry node `[1, 3]` with the repository's integer comparator and key
3. -/
theorem c9_searchKeyIndex_spec_witness :
    ((searchKeyIndex cmpInt [(⟨1, 10⟩ : Item Int Int), ⟨3, 30⟩] 3).2 = true →
      ∃ it : Item Int Int,
        [(⟨1, 10⟩ : Item Int Int), ⟨3, 30⟩][(searchKeyIndex cmpInt [(⟨1, 10⟩ : Item Int Int), ⟨3, 30⟩] 3).1]? = some it
        ∧ cmpInt 3 it.key = 0
        ∧ ∀ (j : Nat) (it2 : Item Int Int),
            [(⟨1, 10⟩ : Item Int Int), ⟨3, 30⟩][j]? = some it2 → cmpInt 3 it2.key = 0 →
            j = (searchKeyIndex cmpInt [(⟨1, 10⟩ : Item Int Int), ⟨3, 30⟩] 3).1)
    ∧ ((searchKeyIndex cmpInt [(⟨1, 10⟩ : Item Int Int), ⟨3, 30⟩] 3).2 = false →
        (searchKeyIndex cmpInt [(⟨1, 10⟩ : Item Int Int), ⟨3, 30⟩] 3).1 ≤
          ([(⟨1, 10⟩ : Item Int Int), ⟨3, 30⟩] : List (Item Int Int)).length
        ∧ (∀ (j : Nat) (it2 : Item Int Int),
            [(⟨1, 10⟩ : Item Int Int), ⟨3, 30⟩][j]? = some it2 → cmpInt 3 it2.key ≠ 0)
        ∧ ∀ (j : Nat) (it2 : Item Int Int),
            [(⟨1, 10⟩ : Item Int Int), ⟨3, 30⟩][j]? = some it2 →
            ((j < (searchKeyIndex cmpInt [(⟨1, 10⟩ : Item Int Int), ⟨3, 30⟩] 3).1 ↔
                0 < cmpInt 3 it2.key)
             ∧ ((searchKeyIndex cmpInt [(⟨1, 10⟩ : Item Int Int), ⟨3, 30⟩] 3).1 ≤ j ↔
                cmpInt 3 it2.key < 0))) :=
  c9_searchKeyIndex_spec cmpInt [⟨1, 10⟩, ⟨3, 30⟩] 3 cmpInt_flip cmpInt_trans (by decide)




end BTreeGo
